import Mathlib

/-!
# proxy-finder: verification of the acquisition–validation–rotation pipeline

Shallow embedding of the core pipeline of the `proxy-finder` repository:

* `ProxyFilter` (`src/proxy_finder/core/filter.py`): syntactic filtering,
* `BaseProxyFetcher` / `ProxyFetcher` (`core/base_fetcher.py`,
  `core/enhanced_fetcher.py`): de-duplication and country filtering,
* `ProxyValidator` (`core/validator.py`): two-phase validation,
* `CountryProxyFetcher` (`core/country_fetcher.py`): construction checks,
* `ProxyStorage` (`utils/proxy_storage.py`): the on-disk cache,
* `ProxyManager.rotate_proxies` (`core/rotation.py`): the rotation loop.

Network and clock effects are passed in as explicit environment functions;
machine floats of the source are modelled as exact rationals (every float
comparison a claim touches is exact at the values involved); Python
dictionaries are modelled as structures whose optional fields mirror
`dict.get` access.  String primitives (`split`, `upper`, prefix tests) are
re-implemented by structural recursion over the character list so that every
definition evaluates inside the kernel.
-/

set_option maxRecDepth 10000

namespace ProxyFinder

/-! ## Strings and digits

Helpers shared by the regex-shaped checks of `filter.py`, `base_fetcher.py`
and `enhanced_fetcher.py`.
-/

/-- Value of a run of decimal digit characters, as Python's `int` computes it
on an all-digit string. -/
def decimalValL (cs : List Char) : Nat :=
  cs.foldl (fun n c => n * 10 + (c.toNat - 48)) 0

/-- Value of an all-digit string (`int(s)` at the guarded uses below). -/
def decimalVal (s : String) : Nat :=
  decimalValL s.toList

/-- Python `str.split(sep)` for a one-character separator, accumulator form. -/
def splitCharAux (c : Char) : List Char → List Char → List (List Char)
  | [], acc => [acc.reverse]
  | x :: xs, acc =>
    if x = c then acc.reverse :: splitCharAux c xs []
    else splitCharAux c xs (x :: acc)

/-- Python `str.split(sep)` for a one-character separator. -/
def splitChar (c : Char) (s : String) : List String :=
  (splitCharAux c s.toList []).map (fun l => String.mk l)

/-- Python `str.upper()`. -/
def toUpperStr (s : String) : String :=
  String.mk (s.toList.map Char.toUpper)

/-- Python `str.startswith(p)`, also `re.match` against a literal prefix. -/
def startsWithStr (pre s : String) : Bool :=
  pre.toList.isPrefixOf s.toList

/-- The character class `\d{lo,hi}`: a run of decimal digits whose length lies
in `[lo, hi]`. -/
def digitRun (lo hi : Nat) (s : String) : Bool :=
  decide (lo ≤ s.toList.length) && decide (s.toList.length ≤ hi) &&
    s.toList.all Char.isDigit

/-- Split at the (unique) colon: `some (before, after)` when the string has
exactly one `':'`, `none` otherwise.  The anchored proxy regexes of the source
fail on any other colon count, which is what the `none` case models. -/
def splitColon (s : String) : Option (String × String) :=
  match splitChar ':' s with
  | [a, b] => some (a, b)
  | _ => none

/-- Split into exactly four dot-separated fields, the shape the IPv4 part of
the proxy regexes requires. -/
def splitDots (s : String) : Option (String × String × String × String) :=
  match splitChar '.' s with
  | [a, b, c, d] => some (a, b, c, d)
  | _ => none

/-! ## ProxyFilter (`core/filter.py`) -/

/-- The regex `^(\d{1,3}\.\d{1,3}\.\d{1,3}\.\d{1,3}):(\d{2,5})$` of
`ProxyFilter._is_valid_proxy_format`. -/
def matchesStrictProxyPattern (s : String) : Bool :=
  match splitColon s with
  | some (ip, port) =>
    (match splitDots ip with
     | some (a, b, c, d) =>
       digitRun 1 3 a && digitRun 1 3 b && digitRun 1 3 c && digitRun 1 3 d
     | none => false) && digitRun 2 5 port
  | none => false

/-- Embeds `ProxyFilter._is_valid_proxy_format`: the regex above, then
`int(part) < 0 or int(part) > 255` on each octet and `port < 1 or
port > 65535` on the port value. -/
def is_valid_proxy_format (proxy : String) : Bool :=
  if matchesStrictProxyPattern proxy then
    match splitColon proxy with
    | some (ip, portStr) =>
      let ipParts := splitChar '.' ip
      let port : Int := (decimalVal portStr : Int)
      if ipParts.any (fun part =>
          decide ((decimalVal part : Int) < 0) || decide ((decimalVal part : Int) > 255)) then
        false
      else if decide (port < 1) || decide (port > 65535) then
        false
      else
        true
    | none => false
  else false

/-- A candidate dictionary as produced by the fetchers: the keys the core
pipeline reads, each optional to mirror `dict.get` access. -/
structure ProxyData where
  proxy : Option String
  country : Option String
  anonymity : Option String
  deriving DecidableEq

/-- Configuration fields of `ProxyFilter.__init__`. -/
structure ProxyFilterCfg where
  min_anonymity : String := "anonymous"
  protocols : List String := ["http", "https"]

/-- Embeds `ProxyFilter.filter_proxies`: drop entries failing the format check, then
apply the anonymity floor when `min_anonymity` is not the default. -/
def filter_proxies (cfg : ProxyFilterCfg) : List ProxyData → List ProxyData
  | [] => []
  | pd :: rest =>
    let proxyStr := pd.proxy.getD ""
    if ¬ is_valid_proxy_format proxyStr then
      filter_proxies cfg rest
    else if cfg.min_anonymity ≠ "anonymous" ∧
        (let anonymity := pd.anonymity.getD "unknown"
         (anonymity = "transparent" ∧
            (cfg.min_anonymity = "anonymous" ∨ cfg.min_anonymity = "elite")) ∨
         (anonymity = "anonymous" ∧ cfg.min_anonymity = "elite")) then
      filter_proxies cfg rest
    else
      pd :: filter_proxies cfg rest

/-! The claim-side format predicate for the syntactic filter, written from the
spec's words rather than from the code. -/

/-- The `IPv4:port` condition as the specification states it: four
dot-separated decimal octets (one to three digit characters, value in
`[0, 255]`) then a colon and a decimal port (one to five digit characters,
value in `[1, 65535]`). -/
def claimIPv4PortFormat (s : String) : Bool :=
  match splitColon s with
  | some (ip, port) =>
    (match splitDots ip with
     | some (a, b, c, d) =>
       [a, b, c, d].all (fun o => digitRun 1 3 o && decide (decimalVal o ≤ 255))
     | none => false) &&
    (digitRun 1 5 port && decide (1 ≤ decimalVal port) && decide (decimalVal port ≤ 65535))
  | none => false

/-- The extra condition the implementation's regex imposes beyond the spec's
words: the port must be written with at least two digit characters. -/
def portHasTwoDigits (s : String) : Bool :=
  match splitColon s with
  | some (_, port) => decide (2 ≤ port.toList.length)
  | none => false

/-! ### Facts about the syntactic filter -/

theorem ite_two_guards (c g1 g2 : Bool) :
    (if c then (if g1 then false else if g2 then false else true) else false)
      = (c && !g1 && !g2) := by
  cases c <;> cases g1 <;> cases g2 <;> rfl

theorem splitDots_eq_some {ip a b c d : String}
    (h : splitDots ip = some (a, b, c, d)) : splitChar '.' ip = [a, b, c, d] := by
  unfold splitDots at h
  rcases h2 : splitChar '.' ip with _ | ⟨x, _ | ⟨y, _ | ⟨z, _ | ⟨w, _ | ⟨v, l⟩⟩⟩⟩⟩ <;>
    rw [h2] at h <;> simp_all

theorem digitRun_two_five (p : String) :
    digitRun 2 5 p = (digitRun 1 5 p && decide (2 ≤ p.toList.length)) := by
  rw [Bool.eq_iff_iff]
  simp only [digitRun, Bool.and_eq_true, decide_eq_true_eq]
  constructor
  · rintro ⟨⟨h1, h2⟩, h3⟩
    exact ⟨⟨⟨by omega, h2⟩, h3⟩, h1⟩
  · rintro ⟨⟨⟨h1, h2⟩, h3⟩, h4⟩
    exact ⟨⟨h4, h2⟩, h3⟩

/-- C5 (counterexample): the address `1.2.3.4:5` has the `IPv4:port` form with
every octet in `[0,255]` and port `5 ∈ [1,65535]`, yet the syntactic filter
rejects it: the regex demands at least two port digits.  This refutes the
claim's "if and only if". -/
theorem c5_single_digit_port_rejected :
    is_valid_proxy_format "1.2.3.4:5" = false ∧
      claimIPv4PortFormat "1.2.3.4:5" = true := by
  constructor <;> decide

/-- C5 (amended): the syntactic filter keeps an address iff it has the
`IPv4:port` form of the claim AND its port is written with at least two
digits; and every entry of a filtered list passed the format check (entries
failing it are dropped, never raised on — the filter is a total function and
an empty result is a valid result). -/
theorem c5_format_characterization :
    (∀ s, is_valid_proxy_format s = (claimIPv4PortFormat s && portHasTwoDigits s)) ∧
    (∀ cfg ps pd, pd ∈ filter_proxies cfg ps →
        is_valid_proxy_format (pd.proxy.getD "") = true) := by
  constructor
  · intro s
    unfold is_valid_proxy_format matchesStrictProxyPattern claimIPv4PortFormat portHasTwoDigits
    rcases h : splitColon s with _ | ⟨ip, port⟩
    · simp
    · rcases h2 : splitDots ip with _ | ⟨⟨a, b, c, d⟩⟩
      · simp [h2]
      · have h3 := splitDots_eq_some h2
        simp only [h2, h3, ite_two_guards, digitRun_two_five]
        rw [Bool.eq_iff_iff]
        simp only [Bool.and_eq_true, Bool.or_eq_true, Bool.not_eq_true', Bool.or_eq_false_iff,
          List.any_cons, List.any_nil, List.all_cons, List.all_nil, decide_eq_true_eq,
          decide_eq_false_iff_not, Bool.and_eq_true]
        constructor
        · rintro ⟨⟨⟨⟨⟨⟨ha, hb⟩, hc⟩, hd⟩, hp15, h2l⟩,
            ⟨-, ha2⟩, ⟨-, hb2⟩, ⟨-, hc2⟩, ⟨-, hd2⟩, -⟩, hp1, hp2⟩
          exact ⟨⟨⟨⟨ha, by omega⟩, ⟨hb, by omega⟩, ⟨hc, by omega⟩, ⟨hd, by omega⟩, trivial⟩,
            ⟨hp15, by omega⟩, by omega⟩, h2l⟩
        · rintro ⟨⟨⟨⟨ha, ha2⟩, ⟨hb, hb2⟩, ⟨hc, hc2⟩, ⟨hd, hd2⟩, -⟩, ⟨hp15, hp1⟩, hp2⟩, h2l⟩
          exact ⟨⟨⟨⟨⟨⟨ha, hb⟩, hc⟩, hd⟩, hp15, h2l⟩, ⟨by omega, by omega⟩, ⟨by omega, by omega⟩,
            ⟨by omega, by omega⟩, ⟨by omega, by omega⟩, trivial⟩, by omega, by omega⟩
  · intro cfg ps
    induction ps with
    | nil => intro pd h; simp [filter_proxies] at h
    | cons hd tl ih =>
      intro pd h
      simp only [filter_proxies] at h
      split at h
      · exact ih pd h
      · next hfmt =>
        split at h
        · exact ih pd h
        · rcases List.mem_cons.mp h with rfl | hm
          · exact not_not.mp hfmt
          · exact ih pd hm

def c5WitnessPD : ProxyData := ⟨some "1.2.3.4:80", none, none⟩

/-- C5 (witness): the well-formed address `1.2.3.4:80` survives filtering and
indeed passes the format check. -/
theorem c5_format_characterization_witness :
    is_valid_proxy_format (c5WitnessPD.proxy.getD "") = true :=
  c5_format_characterization.2 {} [c5WitnessPD] c5WitnessPD (by decide)

/-! ## CountryProxyFetcher (`core/country_fetcher.py`) -/

/-- Python `str.lower()`. -/
def toLowerStr (s : String) : String :=
  String.mk (s.toList.map Char.toLower)

/-- A proxy source definition: the fields of the dicts built by
`_build_sources` that the core reads (the parser member is per-source I/O,
out of core scope). -/
structure SourceSpec where
  name : String
  url : String
  deriving DecidableEq

/-- The normalization `country and country.upper()` of `BaseProxyFetcher.__init__`:
a missing or empty code is kept as it is (both are falsy), anything else is
upper-cased. -/
def normalizeCountry : Option String → Option String
  | none => none
  | some c => if c = "" then some "" else some (toUpperStr c)

/-- The `backup_sources` list of `CountryProxyFetcher._build_sources`. -/
def backupSources : List SourceSpec :=
  [⟨"TheSpeedX", "https://raw.githubusercontent.com/TheSpeedX/SOCKS-List/master/http.txt"⟩,
   ⟨"Clarketm", "https://raw.githubusercontent.com/clarketm/proxy-list/master/proxy-list-raw.txt"⟩,
   ⟨"Monosans", "https://raw.githubusercontent.com/monosans/proxy-list/main/proxies/http.txt"⟩]

/-- Embeds `CountryProxyFetcher._build_sources`: five country-parameterized sources;
the backup list is appended only under `len(sources) < 3`, transcribed
literally even though it never holds for this five-element list. -/
def build_sources (country : String) : List SourceSpec :=
  let sources : List SourceSpec :=
    [⟨"GeoNode",
      "https://proxylist.geonode.com/api/proxy-list?limit=500&page=1&sort_by=lastChecked&sort_type=desc&filterUpTime=90&country="
        ++ country ++ "&protocols=http%2Chttps"⟩,
     ⟨"FreeProxy",
      "https://www.freeproxy.world/?type=http&anonymity=&country=" ++ country
        ++ "&speed=&port=&page=1"⟩,
     ⟨"ProxyScrape",
      "https://api.proxyscrape.com/v2/?request=displayproxies&protocol=http&country="
        ++ country ++ "&ssl=all&anonymity=all&timeout=5000"⟩,
     ⟨"OpenProxy", "https://openproxy.space/list/http/" ++ toLowerStr country⟩,
     ⟨"GatherProxy", "http://www.gatherproxy.com/proxylist/country/?c=" ++ country⟩]
  if sources.length < 3 then sources ++ backupSources else sources

/-- Python exceptions surfacing from construction.  The code base defines no
ConfigurationError class at all; `ValueError` is the only pre-network
rejection. -/
inductive InitError where
  | valueError (msg : String)
  deriving DecidableEq

/-- The fields `CountryProxyFetcher.__init__` leaves behind. -/
structure CountryFetcherState where
  country : Option String
  timeout : ℚ
  sources : List SourceSpec

/-- Embeds `CountryProxyFetcher.__init__`: the base initializer stores the
normalized code, then `if not country_code: raise ValueError(...)`; nothing
else is validated, and no network request occurs — sources are built as pure
data. -/
def countryProxyFetcherInit (country_code : Option String) (timeout : ℚ) :
    Except InitError CountryFetcherState :=
  let country := normalizeCountry country_code
  if country_code = none ∨ country_code = some "" then
    .error (.valueError "Country code is required for CountryProxyFetcher")
  else
    .ok { country := country, timeout := timeout,
          sources := build_sources (country.getD "") }

/-- C6 (counterexample): `XYZ` is not an ISO two-letter country code, yet
constructing a country-filtered fetcher with it succeeds — no error of any
kind is raised before network activity begins. -/
theorem c6_unrecognized_code_accepted :
    (countryProxyFetcherInit (some "XYZ") 5).isOk = true := by
  rfl

/-- C6 (amended): construction rejects (with `ValueError`, before any network
activity) exactly the missing or empty country codes; every non-empty code,
ISO-recognized or not, is accepted without validation. -/
theorem c6_init_error_iff_empty (c : Option String) (t : ℚ) :
    (countryProxyFetcherInit c t).isOk = false ↔ (c = none ∨ c = some "") := by
  rcases c with _ | s
  · simp [countryProxyFetcherInit, Except.isOk, Except.toBool]
  · by_cases h : s = "" <;>
      simp [countryProxyFetcherInit, Except.isOk, Except.toBool, h]

/-! ## ProxyStorage (`utils/proxy_storage.py`) -/

/-- A record of the cache file: the entry's `cached_at` field next to the
rest of the dictionary, abstracted as a payload `α`.  `cached_at = none`
models a record with a missing (or empty) `cached_at` key; `some none` one
whose timestamp string `strptime` cannot parse; `some (some t)` one parsing
to epoch second `t` (the `strftime`/`strptime` round trip is exact at second
granularity). -/
structure CacheRecord (α : Type) where
  data : α
  cached_at : Option (Option Int)
  deriving DecidableEq

/-- The `for proxy in proxies: proxy['cached_at'] = time.strftime(...)` loop
of `ProxyStorage.save_proxies`: stamps the save time `t` into every entry of
the caller's list, in place. -/
def stampEntries {α : Type} (t : Int) : List (CacheRecord α) → List (CacheRecord α)
  | [] => []
  | e :: rest => { e with cached_at := some (some t) } :: stampEntries t rest

/-- Embeds `ProxyStorage.save_proxies` at time `t`: stamps the caller's list, then
overwrites the whole cache file with it (`json.dump` of the full list, not a
merge).  Returns the new file content and the caller's list as the call
leaves it. -/
def save_proxies {α : Type} (t : Int) (proxies : List (CacheRecord α)) :
    Option (List (CacheRecord α)) × List (CacheRecord α) :=
  (some (stampEntries t proxies), stampEntries t proxies)

/-- The age-filter loop of `ProxyStorage.load_proxies`: keep entries whose
parsed `cached_at` satisfies `now - cache_time <= max_age_seconds`; records
with a missing/empty or unparseable `cached_at` hit `continue` and are
skipped without error. -/
def loadFilter {α : Type} (now maxAgeSeconds : Int) :
    List (CacheRecord α) → List (CacheRecord α)
  | [] => []
  | e :: rest =>
    match e.cached_at with
    | some (some ct) =>
      if now - ct ≤ maxAgeSeconds then e :: loadFilter now maxAgeSeconds rest
      else loadFilter now maxAgeSeconds rest
    | _ => loadFilter now maxAgeSeconds rest

/-- Embeds `ProxyStorage.load_proxies`: a missing cache file yields `[]`, otherwise
the age filter runs with `max_age_seconds = max_age_hours * 3600`. -/
def load_proxies {α : Type} (now : Int) (max_age_hours : Int)
    (file : Option (List (CacheRecord α))) : List (CacheRecord α) :=
  match file with
  | none => []
  | some entries => loadFilter now (max_age_hours * 3600) entries

/-- C4: cache round trip.  Saving `X` at time `t` and loading at `now` with a
max age covering the elapsed time returns exactly the entries of `X` with the
added `cached_at` stamp (payloads untouched); and, for any file whatsoever,
every loaded entry carries a parseable `cached_at` within the age bound —
malformed and stale records are skipped, never fatal. -/
theorem c4_cache_round_trip :
    (∀ (α : Type) (X : List (CacheRecord α)) (t now maxAgeHours : Int),
        now - t ≤ maxAgeHours * 3600 →
        load_proxies now maxAgeHours (save_proxies t X).1 = stampEntries t X ∧
        (stampEntries t X).map CacheRecord.data = X.map CacheRecord.data) ∧
    (∀ (α : Type) (file : Option (List (CacheRecord α))) (now maxAgeHours : Int) e,
        e ∈ load_proxies now maxAgeHours file →
        ∃ ct, e.cached_at = some (some ct) ∧ now - ct ≤ maxAgeHours * 3600) := by
  constructor
  · intro α X t now maxAgeHours hage
    constructor
    · show loadFilter now (maxAgeHours * 3600) (stampEntries t X) = stampEntries t X
      induction X with
      | nil => rfl
      | cons e rest ih => simp [stampEntries, loadFilter, hage, ih]
    · induction X with
      | nil => rfl
      | cons e rest ih => simp [stampEntries, ih]
  · intro α file now maxAgeHours e he
    rcases file with _ | entries
    · simp [load_proxies] at he
    · simp only [load_proxies] at he
      induction entries with
      | nil => simp [loadFilter] at he
      | cons f rest ih =>
        rcases hca : f.cached_at with _ | ⟨_ | ct⟩ <;>
          simp only [loadFilter, hca] at he
        · exact ih he
        · exact ih he
        · split at he
          · rcases List.mem_cons.mp he with rfl | hm
            · exact ⟨ct, hca, by assumption⟩
            · exact ih hm
          · exact ih he

/-- C4 (witness): a one-record round trip, saved at epoch second 0 and loaded
ten seconds later with a one-hour age bound. -/
theorem c4_cache_round_trip_witness :
    load_proxies 10 1 (save_proxies 0 [(⟨0, none⟩ : CacheRecord Nat)]).1
      = stampEntries 0 [(⟨0, none⟩ : CacheRecord Nat)] :=
  (c4_cache_round_trip.1 Nat [⟨0, none⟩] 0 10 1 (by decide)).1

/-- C10: `save_proxies` mutates its argument in place: after the call the
caller's list holds the same records in the same order, each with its payload
(all other keys) unchanged and its `cached_at` key set to the save time. -/
theorem c10_save_stamps_in_place (α : Type) (X : List (CacheRecord α)) (t : Int) :
    (save_proxies t X).2
        = X.map (fun e => { data := e.data, cached_at := some (some t) }) ∧
    ((save_proxies t X).2).length = X.length := by
  have hmap : ∀ Y : List (CacheRecord α),
      stampEntries t Y = Y.map (fun e => { data := e.data, cached_at := some (some t) }) := by
    intro Y
    induction Y with
    | nil => rfl
    | cons e rest ih => simp [stampEntries, ih]
  exact ⟨hmap X, by simp [save_proxies, hmap X]⟩

/-! ## De-duplication (`core/base_fetcher.py`, `core/enhanced_fetcher.py`) -/

/-- The looser regex `^\d{1,3}\.\d{1,3}\.\d{1,3}\.\d{1,3}:\d{1,5}$` used by
both fetchers' `_filter_and_deduplicate` (unlike `filter.py`, a one-digit
port passes here). -/
def matchesLooseProxyPattern (s : String) : Bool :=
  match splitColon s with
  | some (ip, port) =>
    (match splitDots ip with
     | some (a, b, c, d) =>
       digitRun 1 3 a && digitRun 1 3 b && digitRun 1 3 c && digitRun 1 3 d
     | none => false) && digitRun 1 5 port
  | none => false

/-- The IP prefix patterns of `BaseProxyFetcher._get_proxy_country`, in the
source's dictionary order; each regex there is an anchored alternation of
literal prefixes, so `re.match` is a starts-with test. -/
def countryPatterns : List (List String × String) :=
  [(["104.16", "104.17", "144.", "146.", "147.", "148.", "149.", "152.", "153.",
     "154.", "155.", "156.", "165.", "166.", "167.", "168.", "169.", "170.",
     "171.", "172.", "173.", "174.", "192.", "198.", "199.", "204.", "205.",
     "206.", "207.", "208.", "209.", "216.", "63.", "64.", "65.", "66.", "67.",
     "68.", "69.", "70.", "71.", "72.", "73.", "74.", "75.", "76.", "96.",
     "97.", "98.", "99."], "US"),
   (["5.", "46."], "DE"),
   (["185.", "95."], "RU"),
   (["103."], "IN"),
   (["1.", "116.", "118.", "121.", "122.", "123.", "124.", "125.", "222.",
     "223.", "58.", "59.", "60.", "61."], "CN"),
   (["14.", "111.", "112.", "211."], "KR"),
   (["119.", "175.", "202."], "SG"),
   (["195."], "FR"),
   (["91."], "NL"),
   (["200.", "201."], "MX"),
   (["45.", "187.", "189."], "BR"),
   (["213."], "GB"),
   (["139."], "JP"),
   (["203."], "AU")]

/-- Embeds `BaseProxyFetcher._get_proxy_country`: the first pattern matching the IP
part of the address wins, otherwise `unknown`.  The `geo_cache` is pure
memoization of this value and is omitted. -/
def get_proxy_country (proxy : String) : String :=
  let ip := (splitChar ':' proxy).headD ""
  match countryPatterns.find? (fun pc => pc.1.any (fun pre => startsWithStr pre ip)) with
  | some pc => pc.2
  | none => "unknown"

/-- Embeds `ProxyFetcher._filter_and_deduplicate` (enhanced_fetcher.py): format
check, then de-duplication by address (`seen`), then the country filter.
The source indexes `proxy_data['proxy']` directly; entries reaching this
point always carry the key, and a missing key is modelled as `""` (which
fails the format check). -/
def enhanced_filter_and_deduplicate (country : Option String) :
    List ProxyData → List String → List ProxyData
  | [], _ => []
  | pd :: rest, seen =>
    let proxyStr := pd.proxy.getD ""
    if ¬ matchesLooseProxyPattern proxyStr then
      enhanced_filter_and_deduplicate country rest seen
    else if proxyStr ∈ seen then
      enhanced_filter_and_deduplicate country rest seen
    else
      match country with
      | some c =>
        if pd.country ≠ some c then
          enhanced_filter_and_deduplicate country rest (proxyStr :: seen)
        else
          pd :: enhanced_filter_and_deduplicate country rest (proxyStr :: seen)
      | none => pd :: enhanced_filter_and_deduplicate country rest (proxyStr :: seen)

/-- Embeds `BaseProxyFetcher._filter_and_deduplicate` (base_fetcher.py), transcribed
with its actual control flow: the `seen` membership test only feeds the set
(whose size a log line reports) — a duplicate address is NOT skipped and
falls through to the append.  `len` tracks `len(unique_proxies)` for the
`max_proxies` break; the country-heuristic append path bypasses that break
(its `continue` skips the check), and `proxy_data['country']` is overwritten
with the detected code on the entry that is appended. -/
def base_filter_and_deduplicate (country : Option String) (maxProxies : Nat) :
    List ProxyData → List String → Nat → List ProxyData
  | [], _, _ => []
  | pd :: rest, seen, len =>
    let proxyStr := pd.proxy.getD ""
    if proxyStr = "" then
      base_filter_and_deduplicate country maxProxies rest seen len
    else if ¬ matchesLooseProxyPattern proxyStr then
      base_filter_and_deduplicate country maxProxies rest seen len
    else
      let seen' := if proxyStr ∈ seen then seen else proxyStr :: seen
      match country with
      | some tc =>
        let proxyCountry := toUpperStr (pd.country.getD "unknown")
        if proxyCountry ≠ toUpperStr tc then
          if proxyCountry = "UNKNOWN" then
            let detected := get_proxy_country proxyStr
            let pd' := { pd with country := some detected }
            if toUpperStr detected = toUpperStr tc then
              pd' :: base_filter_and_deduplicate country maxProxies rest seen' (len + 1)
            else
              base_filter_and_deduplicate country maxProxies rest seen' len
          else
            base_filter_and_deduplicate country maxProxies rest seen' len
        else
          pd :: (if maxProxies ≤ len + 1 then []
                 else base_filter_and_deduplicate country maxProxies rest seen' (len + 1))
      | none =>
        pd :: (if maxProxies ≤ len + 1 then []
               else base_filter_and_deduplicate country maxProxies rest seen' (len + 1))

def c2DupEntry : ProxyData := ⟨some "1.2.3.4:80", some "unknown", some "unknown"⟩

/-- C2: evaluating `base_fetcher._filter_and_deduplicate` at the failing
input — the same well-formed address twice, no country filter — returns both
copies: the address repeats in the output, contradicting the function's own
"deduplicated proxy list" contract (its `seen` bookkeeping never skips). -/
theorem c2_base_dedup_keeps_duplicates :
    (base_filter_and_deduplicate none 100 [c2DupEntry, c2DupEntry] [] 0).map
        (fun pd => pd.proxy.getD "")
      = ["1.2.3.4:80", "1.2.3.4:80"] := by
  decide

theorem enhanced_dedup_cons_keep (country : Option String) (pd : ProxyData)
    (rest : List ProxyData) (seen : List String)
    (hseen : (pd.proxy.getD "") ∉ seen)
    (h : ((enhanced_filter_and_deduplicate country rest ((pd.proxy.getD "") :: seen)).map
            (fun q => q.proxy.getD "")).Nodup ∧
         ∀ q ∈ enhanced_filter_and_deduplicate country rest ((pd.proxy.getD "") :: seen),
           (q.proxy.getD "") ∉ ((pd.proxy.getD "") :: seen)) :
    ((pd :: enhanced_filter_and_deduplicate country rest ((pd.proxy.getD "") :: seen)).map
        (fun q => q.proxy.getD "")).Nodup ∧
    ∀ q ∈ pd :: enhanced_filter_and_deduplicate country rest ((pd.proxy.getD "") :: seen),
      (q.proxy.getD "") ∉ seen := by
  obtain ⟨hnodup, hfresh⟩ := h
  constructor
  · refine List.nodup_cons.mpr ⟨?_, hnodup⟩
    intro hmem
    obtain ⟨q, hq, hqe⟩ := List.mem_map.mp hmem
    exact hfresh q hq (hqe ▸ List.mem_cons_self _ _)
  · intro q hq
    rcases List.mem_cons.mp hq with rfl | hq2
    · exact hseen
    · exact fun habs => hfresh q hq2 (List.mem_cons_of_mem _ habs)

/-- The enhanced fetcher's `_filter_and_deduplicate` does satisfy the
de-duplication contract: every address of the output is distinct and fresh
with respect to the incoming `seen` set. -/
theorem enhanced_dedup_no_duplicates (country : Option String)
    (ps : List ProxyData) (seen : List String) :
    ((enhanced_filter_and_deduplicate country ps seen).map
        (fun pd => pd.proxy.getD "")).Nodup ∧
    ∀ pd ∈ enhanced_filter_and_deduplicate country ps seen,
      (pd.proxy.getD "") ∉ seen := by
  induction ps generalizing seen with
  | nil => simp [enhanced_filter_and_deduplicate]
  | cons pd rest ih =>
    simp only [enhanced_filter_and_deduplicate]
    split
    · exact ih seen
    · split
      · exact ih seen
      · next hseen =>
        rcases country with _ | c
        · exact enhanced_dedup_cons_keep none pd rest seen hseen (ih _)
        · dsimp only
          split
          · obtain ⟨h1, h2⟩ := ih ((pd.proxy.getD "") :: seen)
            exact ⟨h1, fun q hq habs => h2 q hq (List.mem_cons_of_mem _ habs)⟩
          · exact enhanced_dedup_cons_keep (some c) pd rest seen hseen (ih _)

/-! ## ProxyValidator (`core/validator.py`) -/

/-- An HTTP response as `requests.get` returns it, restricted to the parts
`get_proxy_details` reads. -/
structure HttpResponse where
  status_code : Nat
  text : String
  deriving DecidableEq

/-- Python's `bool(response)` for a requests Response is `response.ok`, i.e.
`status_code < 400`; a missing response (`None`) is falsy. -/
def respTruthy : Option HttpResponse → Bool
  | some r => decide (r.status_code < 400)
  | none => false

/-- Checks `response and response.status_code == c`. -/
def respStatusIs (resp : Option HttpResponse) (c : Nat) : Bool :=
  match resp with
  | some r => decide (r.status_code = c)
  | none => false

/-- Python `int(s)` on the strings this code path meets: an optional sign, then
decimal digits (Python's `int` also strips whitespace, immaterial for
colon-split port fields). -/
def pyInt (s : String) : Option Int :=
  match s.toList with
  | [] => none
  | '-' :: rest =>
    if rest ≠ [] ∧ rest.all Char.isDigit then some (-(decimalValL rest : Int)) else none
  | '+' :: rest =>
    if rest ≠ [] ∧ rest.all Char.isDigit then some ((decimalValL rest : Int)) else none
  | cs => if cs.all Char.isDigit then some ((decimalValL cs : Int)) else none

/-- Embeds `host, port = proxy.split(':')` followed by `int(port)`: any failure
(wrong colon count, unparseable port) raises inside the outer `try`, whose
handler returns None. -/
def parseHostPort (proxy : String) : Option (String × Int) :=
  match splitColon proxy with
  | some (host, port) =>
    match pyInt port with
    | some p => some (host, p)
    | none => none
  | none => none

/-- The `test_urls` list of `get_proxy_details`, in probe order. -/
def test_urls : List String :=
  ["http://httpbin.org/ip", "http://ip-api.com/json", "http://ifconfig.me/ip",
   "http://example.com", "http://www.google.com"]

/-- The I/O environment of one `get_proxy_details` call.  `reach` is the
outcome of the Phase-A raw socket connect to (host, port); `probe i` the
outcome of `requests.get(test_urls[i], ...)` through the candidate — `none`
for an exception, otherwise the response with its wall-clock seconds;
`parseIp` abstracts the json/text IP extraction from a successful response
body; `nowStr` is the `datetime.now()` timestamp string. -/
structure ValidatorEnv where
  reach : String → Int → Bool
  probe : Nat → Option (HttpResponse × ℚ)
  parseIp : String → Option String
  nowStr : String

/-- The result dictionary of `get_proxy_details`. -/
structure ProxyDetails where
  proxy : String
  status : String
  speed : ℚ
  last_checked : String
  ip : String
  country : String
  anonymity : String
  requires_auth : Bool
  deriving DecidableEq

/-- The `for test_url in test_urls` loop of `get_proxy_details`: state is
(last response, last response time, auth flag).  An exception continues; a
407 breaks with the auth flag set; a 200 breaks; any other response is
recorded and the loop moves on. -/
def probeLoop (probe : Nat → Option (HttpResponse × ℚ)) :
    List Nat → Option HttpResponse × ℚ × Bool → Option HttpResponse × ℚ × Bool
  | [], st => st
  | i :: rest, (resp, rtime, auth) =>
    match probe i with
    | none => probeLoop probe rest (resp, rtime, auth)
    | some (r, t) =>
      if r.status_code = 407 then (some r, t, true)
      else if r.status_code = 200 then (some r, t, false)
      else probeLoop probe rest (some r, t, auth)

/-- Python `round(x, 2)`: rounding to hundredths (the tie-breaking convention is
immaterial to every property below). -/
def roundQ2 (q : ℚ) : ℚ := (round (q * 100) : ℤ) / 100

/-- Embeds `ProxyValidator.get_proxy_details`.  Phase A parses the address and
attempts the raw socket connect; on socket failure the lenient branch
returns an `unvalidated` stub when a candidate dict was supplied, and None
otherwise; on success the functional probe loop runs and the result
dictionary is assembled exactly as in the source (note that a 4xx/5xx
response is falsy in Python, which drives `status`, `speed`, the IP
enhancement and the anonymity inference). -/
def get_proxy_details (env : ValidatorEnv) (proxy_data : Option ProxyData)
    (proxy_str : Option String) : Option ProxyDetails :=
  let proxyOpt := match proxy_data with
    | some pd => pd.proxy
    | none => proxy_str
  match proxyOpt with
  | none => none
  | some proxy =>
    if proxy = "" then none
    else
      match parseHostPort proxy with
      | none => none
      | some (host, port) =>
        if ¬ env.reach host port then
          match proxy_data with
          | some pd =>
            some { proxy := proxy
                   status := "unvalidated"
                   speed := 999.99
                   last_checked := env.nowStr
                   ip := (splitChar ':' proxy).headD ""
                   country := pd.country.getD "unknown"
                   anonymity := pd.anonymity.getD "unknown"
                   requires_auth := false }
          | none => none
        else
          let st := probeLoop env.probe (List.range test_urls.length) (none, 0, false)
          let resp := st.1
          let rtime := st.2.1
          let auth := st.2.2
          let ip0 := (splitChar ':' proxy).headD ""
          let ip := match resp with
            | some r =>
              if respTruthy (some r) && decide (r.status_code = 200) then
                (env.parseIp r.text).getD ip0
              else ip0
            | none => ip0
          let country := match proxy_data with
            | some pd => pd.country.getD "unknown"
            | none => "unknown"
          let anonymity0 := match proxy_data with
            | some pd => pd.anonymity.getD "unknown"
            | none => "unknown"
          let anonymity :=
            if anonymity0 = "unknown" ∧ respTruthy resp = true then
              if rtime < 2 then "elite"
              else if rtime < 5 then "anonymous"
              else "transparent"
            else anonymity0
          some { proxy := proxy
                 status := if respTruthy resp && respStatusIs resp 200 then "valid"
                           else "unvalidated"
                 speed := if respTruthy resp then roundQ2 rtime else 999.99
                 last_checked := env.nowStr
                 ip := ip
                 country := country
                 anonymity := anonymity
                 requires_auth := auth }

/-! ### Phase-A failure behavior (C1) -/

def c1Env : ValidatorEnv :=
  { reach := fun _ _ => false
    probe := fun _ => none
    parseIp := fun _ => none
    nowStr := "2025-01-01 00:00:00" }

def c1PD : ProxyData := ⟨some "1.2.3.4:8080", some "US", some "elite"⟩

/-- C1 (counterexample): a candidate whose Phase-A reachability probe fails —
the socket connect refuses for every address — still yields a NON-null
result when validated through a candidate dict: the lenient branch returns a
stub marked `unvalidated` instead of the null the claim requires. -/
theorem c1_failed_reach_returns_lenient_result :
    (get_proxy_details c1Env (some c1PD) none).isSome = true ∧
    (get_proxy_details c1Env (some c1PD) none).map ProxyDetails.status
      = some "unvalidated" := by
  constructor <;> rfl

/-- C1 (amended): when the Phase-A reachability probe fails, no functional
probing is performed (the result does not depend on the probe oracle); a call
carrying only a raw proxy string returns null; and no result produced under a
failed Phase-A probe ever carries status `valid` — when a candidate dict was
supplied the lenient branch returns it marked `unvalidated`. -/
theorem c1_failed_reach_no_probing (env : ValidatorEnv)
    (q : Nat → Option (HttpResponse × ℚ)) (pd? : Option ProxyData)
    (ps? : Option String)
    (hreach : ∀ h p, env.reach h p = false) :
    get_proxy_details { env with probe := q } pd? ps? = get_proxy_details env pd? ps? ∧
    (pd? = none → get_proxy_details env pd? ps? = none) ∧
    (∀ d, get_proxy_details env pd? ps? = some d → d.status = "unvalidated") := by
  rcases pd? with _ | pd
  · rcases ps? with _ | s
    · exact ⟨rfl, fun _ => rfl, fun d hd => by simp [get_proxy_details] at hd⟩
    · by_cases hs : s = ""
      · subst hs
        exact ⟨rfl, fun _ => rfl, fun d hd => by simp [get_proxy_details] at hd⟩
      · rcases hp : parseHostPort s with _ | ⟨host, port⟩
        · exact ⟨by simp [get_proxy_details, hs, hp],
            fun _ => by simp [get_proxy_details, hs, hp],
            fun d hd => by simp [get_proxy_details, hs, hp] at hd⟩
        · exact ⟨by simp [get_proxy_details, hs, hp, hreach],
            fun _ => by simp [get_proxy_details, hs, hp, hreach],
            fun d hd => by simp [get_proxy_details, hs, hp, hreach] at hd⟩
  · rcases hpp : pd.proxy with _ | s
    · exact ⟨by simp [get_proxy_details, hpp], fun h => Option.noConfusion h,
        fun d hd => by simp [get_proxy_details, hpp] at hd⟩
    · by_cases hs : s = ""
      · subst hs
        exact ⟨by simp [get_proxy_details, hpp], fun h => Option.noConfusion h,
          fun d hd => by simp [get_proxy_details, hpp] at hd⟩
      · rcases hp : parseHostPort s with _ | ⟨host, port⟩
        · exact ⟨by simp [get_proxy_details, hpp, hs, hp], fun h => Option.noConfusion h,
            fun d hd => by simp [get_proxy_details, hpp, hs, hp] at hd⟩
        · refine ⟨?_, fun h => Option.noConfusion h, fun d hd => ?_⟩
          · simp [get_proxy_details, hpp, hs, hp, hreach]
          · simp [get_proxy_details, hpp, hs, hp, hreach] at hd
            rw [← hd]

/-- C1 (witness): with only a raw proxy string supplied and an unreachable
address, the call indeed returns null. -/
theorem c1_failed_reach_no_probing_witness :
    get_proxy_details c1Env none (some "1.2.3.4:8080") = none :=
  (c1_failed_reach_no_probing c1Env (fun _ => none) none (some "1.2.3.4:8080")
    (fun _ _ => rfl)).2.1 rfl

/-! ### 407 handling (C8) -/

/-- Inside the probe loop: if every endpoint before `i` in probe order either
raised or returned a status other than 200/407, and endpoint `i` returns a
407, the loop stops at `i` with the auth flag set, for any oracle agreeing
with the real one up to `i` — endpoints after `i` are never consulted. -/
theorem probeLoop_break_at_407 (probe q : Nat → Option (HttpResponse × ℚ))
    (i : Nat) (r : HttpResponse) (t : ℚ)
    (hi : probe i = some (r, t)) (hcode : r.status_code = 407)
    (hqi : q i = probe i) :
    ∀ (l1 l2 : List Nat) (st : Option HttpResponse × ℚ × Bool),
      (∀ j ∈ l1, ∀ r' t', probe j = some (r', t') →
          r'.status_code ≠ 407 ∧ r'.status_code ≠ 200) →
      (∀ j ∈ l1, q j = probe j) →
      probeLoop probe (l1 ++ i :: l2) st = (some r, t, true) ∧
      probeLoop q (l1 ++ i :: l2) st = (some r, t, true) := by
  intro l1
  induction l1 with
  | nil =>
    rintro l2 ⟨resp, rtime, auth⟩ hskip hq
    constructor
    · simp [probeLoop, hi, hcode]
    · simp [probeLoop, hqi, hi, hcode]
  | cons j rest ih =>
    rintro l2 ⟨resp, rtime, auth⟩ hskip hq
    have hqj : q j = probe j := hq j (List.mem_cons_self _ _)
    have ih' := ih l2
    rcases hpj : probe j with _ | ⟨r', t'⟩
    · have step := ih' (resp, rtime, auth)
        (fun k hk => hskip k (List.mem_cons_of_mem _ hk))
        (fun k hk => hq k (List.mem_cons_of_mem _ hk))
      constructor
      · simpa [probeLoop, hpj] using step.1
      · simpa [probeLoop, hqj, hpj] using step.2
    · obtain ⟨h1, h2⟩ := hskip j (List.mem_cons_self _ _) r' t' hpj
      have step := ih' (some r', t', auth)
        (fun k hk => hskip k (List.mem_cons_of_mem _ hk))
        (fun k hk => hq k (List.mem_cons_of_mem _ hk))
      constructor
      · simpa [probeLoop, hpj, h1, h2] using step.1
      · simpa [probeLoop, hqj, hpj, h1, h2] using step.2

/-- C8: a candidate whose functional probe receives a 407 (with no earlier
200 or 407) gets `requires_auth = true` in its returned result, and no later
endpoint influences that result: any probe oracle agreeing with the real one
up to the 407 endpoint produces the identical result. -/
theorem c8_auth_response_stops_probing (env : ValidatorEnv)
    (q : Nat → Option (HttpResponse × ℚ)) (pd : ProxyData) (proxy host : String)
    (port : Int) (l1 l2 : List Nat) (i : Nat) (r : HttpResponse) (t : ℚ)
    (hpd : pd.proxy = some proxy) (hne : proxy ≠ "")
    (hparse : parseHostPort proxy = some (host, port))
    (hreach : env.reach host port = true)
    (hsplit : List.range test_urls.length = l1 ++ i :: l2)
    (hskip : ∀ j ∈ l1, ∀ r' t', env.probe j = some (r', t') →
        r'.status_code ≠ 407 ∧ r'.status_code ≠ 200)
    (hi : env.probe i = some (r, t)) (hcode : r.status_code = 407)
    (hqi : q i = env.probe i) (hq : ∀ j ∈ l1, q j = env.probe j) :
    (get_proxy_details env (some pd) none).map ProxyDetails.requires_auth
        = some true ∧
    get_proxy_details { env with probe := q } (some pd) none
      = get_proxy_details env (some pd) none := by
  obtain ⟨hl1, hl2⟩ :=
    probeLoop_break_at_407 env.probe q i r t hi hcode hqi l1 l2 (none, 0, false) hskip hq
  rw [← hsplit] at hl1 hl2
  constructor
  · simp only [get_proxy_details, hpd, hparse, hreach, hl1, if_neg hne,
      not_true, if_neg not_false]
    rfl
  · simp only [get_proxy_details, hpd, hparse, hreach, hl1, hl2]

def c8WEnv : ValidatorEnv :=
  { reach := fun _ _ => true
    probe := fun j => if j = 0 then some (⟨407, ""⟩, 1) else none
    parseIp := fun _ => none
    nowStr := "2025-01-01 00:00:00" }

def c8WPD : ProxyData := ⟨some "1.2.3.4:80", none, none⟩

/-- C8 (witness): a reachable candidate whose first probe answers 407 comes
back with `requires_auth = true`. -/
theorem c8_auth_response_stops_probing_witness :
    (get_proxy_details c8WEnv (some c8WPD) none).map ProxyDetails.requires_auth
      = some true :=
  (c8_auth_response_stops_probing c8WEnv c8WEnv.probe c8WPD "1.2.3.4:80" "1.2.3.4"
    80 [] [1, 2, 3, 4] 0 ⟨407, ""⟩ 1 rfl (by decide) rfl rfl rfl
    (fun j hj => absurd hj (List.not_mem_nil j)) rfl rfl rfl
    (fun j hj => absurd hj (List.not_mem_nil j))).1

/-! ### Anonymity inference (C9) -/

/-- The probe loop's final state — (last response, its wall-clock seconds,
auth flag) — for one validation call. -/
def probeOutcome (env : ValidatorEnv) : Option HttpResponse × ℚ × Bool :=
  probeLoop env.probe (List.range test_urls.length) (none, 0, false)

def c9Env : ValidatorEnv :=
  { reach := fun _ _ => true
    probe := fun _ => none
    parseIp := fun _ => none
    nowStr := "2025-01-01 00:00:00" }

def c9PD : ProxyData := ⟨some "1.2.3.4:80", some "US", none⟩

/-- C9 (counterexample): a reachable candidate with no anonymity hint whose
functional probes ALL fail is returned with tier `unknown`, not the
`transparent` the claim assigns to a failed functional probe. -/
theorem c9_failed_probe_keeps_unknown :
    (get_proxy_details c9Env (some c9PD) none).map ProxyDetails.anonymity
        = some "unknown" ∧
    ("unknown" : String) ≠ "transparent" := by
  exact ⟨rfl, by decide⟩

/-- C9 (amended): with no anonymity hint and a reachable candidate, the tier
is inferred from the measured latency only when the probe loop ended on a
sub-400 response: under 2s elite, under 5s anonymous, otherwise transparent;
when no usable response came back (every probe raised, or the last response
was 4xx/5xx, the 407 break included) the tier stays `unknown`.  It is always
one of the four enumerated values. -/
theorem c9_latency_tier_inference (env : ValidatorEnv) (pd : ProxyData)
    (proxy host : String) (port : Int)
    (hpd : pd.proxy = some proxy) (hne : proxy ≠ "")
    (hparse : parseHostPort proxy = some (host, port))
    (hreach : env.reach host port = true)
    (hhint : pd.anonymity.getD "unknown" = "unknown") :
    (respTruthy (probeOutcome env).1 = false →
      (get_proxy_details env (some pd) none).map ProxyDetails.anonymity
        = some "unknown") ∧
    (respTruthy (probeOutcome env).1 = true →
      (get_proxy_details env (some pd) none).map ProxyDetails.anonymity
        = some (if (probeOutcome env).2.1 < 2 then "elite"
                else if (probeOutcome env).2.1 < 5 then "anonymous"
                else "transparent")) ∧
    (∀ d, get_proxy_details env (some pd) none = some d →
      d.anonymity ∈ (["transparent", "anonymous", "elite", "unknown"] : List String)) := by
  have hpo : probeLoop env.probe (List.range test_urls.length) (none, 0, false)
      = probeOutcome env := rfl
  refine ⟨?_, ?_, ?_⟩
  · intro h
    simp only [get_proxy_details, hpd, hparse, hreach, if_neg hne, not_true,
      if_neg not_false, hpo, hhint, h]
    simp
  · intro h
    simp only [get_proxy_details, hpd, hparse, hreach, if_neg hne, not_true,
      if_neg not_false, hpo, hhint, h]
    simp
  · intro d hd
    simp only [get_proxy_details, hpd, hparse, hreach, if_neg hne, not_true,
      if_neg not_false, hpo, hhint] at hd
    rw [← Option.some.inj hd]
    dsimp only
    split_ifs <;> simp

def c9WEnv : ValidatorEnv :=
  { reach := fun _ _ => true
    probe := fun j => if j = 0 then some (⟨200, "body"⟩, 1) else none
    parseIp := fun _ => none
    nowStr := "2025-01-01 00:00:00" }

/-- C9 (witness): a hint-less candidate answering 200 in one second is
classified elite. -/
theorem c9_latency_tier_inference_witness :
    (get_proxy_details c9WEnv (some c9PD) none).map ProxyDetails.anonymity
      = some "elite" := by
  have h := (c9_latency_tier_inference c9WEnv c9PD "1.2.3.4:80" "1.2.3.4" 80
    rfl (by decide) rfl rfl rfl).2.1 rfl
  rw [h]
  rfl

/-! ## ProxyManager.rotate_proxies (`core/rotation.py`) -/

/-- The error `rotate_proxies` raises on total exhaustion (the spec's
ExhaustionError). -/
inductive ProxyFinderError where
  | exhausted (msg : String)
  deriving DecidableEq

/-- The environment of one `rotate_proxies` call: `fetchAll k` is the
combined `all_proxies` the fetch block (main fetcher, per-country fetchers,
static fallback — all network I/O with its local exception handling) yields
in iteration `k`; `validate v pd` the outcome of the `v`-th
`get_proxy_details` call of the session; `sample k` the `random.sample`
selection of iteration `k`. -/
structure RotationEnv where
  fetchAll : Nat → List ProxyData
  validate : Nat → ProxyData → Option ProxyDetails
  sample : Nat → List ProxyData

/-- The mutable state of the rotation loop: collected results, the attempt
counter, the session's seen addresses, `self.proxy_cache`, the iteration
index and the validation-call index (the last two address the oracles). -/
structure RotationState where
  valid : List ProxyDetails
  attempts : Nat
  seen : List String
  cache : List (String × ProxyDetails)
  iter : Nat
  vcall : Nat

/-- The `self.proxy_cache[k]` lookup; insertion prepends, so the first hit is the
newest binding, as for a Python dict. -/
def lookupCache (cache : List (String × ProxyDetails)) (k : String) :
    Option ProxyDetails :=
  match cache.find? (fun e => e.1 = k) with
  | some e => some e.2
  | none => none

/-- The `for proxy_data in new_proxies` loop of `rotate_proxies`: entries
without an address are skipped; addresses are marked seen; a cached
validation is served only while the collection is below target (otherwise
control falls through to a fresh validation); a successful validation is
appended and cached, and the loop breaks once `num_proxies` are held. -/
def processProxies (env : RotationEnv) (n : Nat) :
    List ProxyData → RotationState → RotationState
  | [], s => s
  | pd :: rest, s =>
    match pd.proxy with
    | none => processProxies env n rest s
    | some pstr =>
      if pstr = "" then processProxies env n rest s
      else
        let s1 := { s with seen := if pstr ∈ s.seen then s.seen else pstr :: s.seen }
        match lookupCache s1.cache pstr, decide (s1.valid.length < n) with
        | some d, true =>
          processProxies env n rest { s1 with valid := s1.valid ++ [d] }
        | _, _ =>
          let res := env.validate s1.vcall pd
          let s2 := { s1 with vcall := s1.vcall + 1 }
          match res with
          | some d =>
            let s3 := { s2 with valid := s2.valid ++ [d],
                                cache := (pstr, d) :: s2.cache }
            if n ≤ s3.valid.length then s3
            else processProxies env n rest s3
          | none => processProxies env n rest s2

/-- One iteration of the `while` body of `rotate_proxies`.  When no fresh
candidate remains, `attempts` is bumped and, inside the last fifth of the
budget (`attempts > max_attempts * num_proxies * 0.8`, exact arithmetic
`5 * attempts > 4 * budget`: both comparands are integers whose float images
are exact at every reachable magnitude), a random sample of already-seen
candidates is retried; the per-iteration `attempts += 1` at the loop bottom
then fires as well. -/
def rotationIteration (env : RotationEnv) (n maxAttempts : Nat)
    (s : RotationState) : RotationState :=
  let budget := maxAttempts * n
  let all := env.fetchAll s.iter
  let newProxies := all.filter (fun pd =>
    match pd.proxy with
    | some p => decide (p ∉ s.seen)
    | none => true)
  if newProxies.isEmpty then
    let s1 := { s with attempts := s.attempts + 1 }
    if 5 * s1.attempts > 4 * budget ∧ ¬ all.isEmpty then
      let s2 := processProxies env n (env.sample s.iter) s1
      { s2 with attempts := s2.attempts + 1, iter := s.iter + 1 }
    else
      { s1 with iter := s.iter + 1 }
  else
    let s2 := processProxies env n newProxies s
    { s2 with attempts := s2.attempts + 1, iter := s.iter + 1 }

/-- The `while len(valid_proxies) < num_proxies and attempts <
max_attempts * num_proxies` loop, with explicit fuel; `max_attempts * n`
iterations always suffice because each one increments `attempts`
(`rotationLoop_exhausts`). -/
def rotationLoop (env : RotationEnv) (n maxAttempts : Nat) :
    Nat → RotationState → RotationState
  | 0, s => s
  | fuel + 1, s =>
    if s.valid.length < n ∧ s.attempts < maxAttempts * n then
      rotationLoop env n maxAttempts fuel (rotationIteration env n maxAttempts s)
    else s

def initialRotationState : RotationState := ⟨[], 0, [], [], 0, 0⟩

/-- The state the loop of one `rotate_proxies(n, max_attempts)` call ends
in. -/
def rotationFinalState (env : RotationEnv) (n maxAttempts : Nat) : RotationState :=
  rotationLoop env n maxAttempts (maxAttempts * n) initialRotationState

/-- The comparison `lambda x: x.get('speed', float('inf'))` of the final
sort; every details dict this pipeline builds carries a `speed` key. -/
def speedLE (a b : ProxyDetails) : Bool := decide (a.speed ≤ b.speed)

/-- The message of the exhaustion error. -/
def rotationFailMsg (n attempts : Nat) : String :=
  "Failed to find " ++ toString n ++ " valid proxies after "
    ++ toString attempts ++ " attempts"

/-- Embeds `ProxyManager.rotate_proxies`: run the loop; `if not valid_proxies`
raise `ProxyFinderError`; otherwise sort ascending by speed and truncate to
`num_proxies`. -/
def rotate_proxies (env : RotationEnv) (n maxAttempts : Nat) :
    Except ProxyFinderError (List ProxyDetails) :=
  let sF := rotationFinalState env n maxAttempts
  if sF.valid.isEmpty then
    .error (.exhausted (rotationFailMsg n sF.attempts))
  else
    .ok ((sF.valid.mergeSort speedLE).take n)

/-! ### Loop accounting -/

theorem processProxies_attempts (env : RotationEnv) (n : Nat) :
    ∀ (ps : List ProxyData) (s : RotationState),
      (processProxies env n ps s).attempts = s.attempts := by
  intro ps
  induction ps with
  | nil => intro s; rfl
  | cons pd rest ih =>
    intro s
    simp only [processProxies]
    split
    · exact ih s
    · split
      · exact ih s
      · split
        · exact (ih _).trans rfl
        · split
          · split
            · rfl
            · exact (ih _).trans rfl
          · exact (ih _).trans rfl

theorem rotationIteration_attempts (env : RotationEnv) (n maxAttempts : Nat)
    (s : RotationState) :
    s.attempts + 1 ≤ (rotationIteration env n maxAttempts s).attempts := by
  simp only [rotationIteration]
  split
  · split
    · simp [processProxies_attempts]
    · simp
  · simp [processProxies_attempts]

theorem rotationLoop_exhausts (env : RotationEnv) (n maxAttempts : Nat) :
    ∀ (fuel : Nat) (s : RotationState),
      maxAttempts * n ≤ s.attempts + fuel →
      ¬ ((rotationLoop env n maxAttempts fuel s).valid.length < n ∧
         (rotationLoop env n maxAttempts fuel s).attempts < maxAttempts * n) := by
  intro fuel
  induction fuel with
  | zero =>
    intro s h
    simp only [rotationLoop]
    omega
  | succ fuel ih =>
    intro s h
    simp only [rotationLoop]
    split
    · apply ih
      have := rotationIteration_attempts env n maxAttempts s
      omega
    · next hguard => exact hguard

/-! ### The rotation claims -/

/-- C3: for a call of `rotate_proxies` whose attempt budget is exhausted:
with zero collected results it raises the exhaustion error; with at least
one collected it returns without raising, and when the collection is below
`n` the returned list is a permutation of everything collected (nothing
dropped) and the budget `max_attempts * n` was indeed spent. -/
theorem c3_exhaustion_behavior (env : RotationEnv) (n maxAttempts : Nat) :
    ((rotationFinalState env n maxAttempts).valid = [] →
      rotate_proxies env n maxAttempts
        = .error (.exhausted (rotationFailMsg n
            (rotationFinalState env n maxAttempts).attempts))) ∧
    ((rotationFinalState env n maxAttempts).valid ≠ [] →
      rotate_proxies env n maxAttempts
          = .ok (((rotationFinalState env n maxAttempts).valid.mergeSort
              speedLE).take n) ∧
        ((rotationFinalState env n maxAttempts).valid.length < n →
          (((rotationFinalState env n maxAttempts).valid.mergeSort
              speedLE).take n).Perm (rotationFinalState env n maxAttempts).valid ∧
          maxAttempts * n ≤ (rotationFinalState env n maxAttempts).attempts)) := by
  constructor
  · intro h
    simp [rotate_proxies, h]
  · intro h
    have hne : (rotationFinalState env n maxAttempts).valid.isEmpty = false := by
      simpa [List.isEmpty_iff] using h
    refine ⟨by simp [rotate_proxies, hne], fun hlt => ⟨?_, ?_⟩⟩
    · have hlen : ((rotationFinalState env n maxAttempts).valid.mergeSort
          speedLE).length ≤ n := by
        simpa using le_of_lt hlt
      rw [List.take_of_length_le hlen]
      exact List.mergeSort_perm _ _
    · have hfull := rotationLoop_exhausts env n maxAttempts
        (maxAttempts * n) initialRotationState (by simp [initialRotationState])
      rw [show rotationLoop env n maxAttempts (maxAttempts * n) initialRotationState
            = rotationFinalState env n maxAttempts from rfl] at hfull
      omega

def c3WEnv : RotationEnv :=
  { fetchAll := fun _ => []
    validate := fun _ _ => none
    sample := fun _ => [] }

/-- C3 (witness): with every fetch empty, a `rotate_proxies(1, 2)` call
exhausts its budget of 2 attempts with nothing collected and raises the
exhaustion error. -/
theorem c3_exhaustion_behavior_witness :
    rotate_proxies c3WEnv 1 2
      = .error (.exhausted (rotationFailMsg 1
          (rotationFinalState c3WEnv 1 2).attempts)) :=
  (c3_exhaustion_behavior c3WEnv 1 2).1 rfl

/-- C7: every list `rotate_proxies` returns has length at most `n` and is
sorted by non-decreasing `speed` (the measured latency in seconds). -/
theorem c7_sorted_and_bounded (env : RotationEnv) (n maxAttempts : Nat)
    (l : List ProxyDetails) (h : rotate_proxies env n maxAttempts = .ok l) :
    l.length ≤ n ∧ l.Pairwise (fun a b => a.speed ≤ b.speed) := by
  simp only [rotate_proxies] at h
  split at h
  · cases h
  · have hl := Except.ok.inj h
    subst hl
    constructor
    · simp
    · have hsorted : ((rotationFinalState env n maxAttempts).valid.mergeSort
          speedLE).Pairwise (fun a b => speedLE a b = true) :=
        List.sorted_mergeSort
          (fun a b c hab hbc => by
            simp only [speedLE, decide_eq_true_eq] at *
            exact le_trans hab hbc)
          (fun a b => by
            simp only [speedLE, Bool.or_eq_true, decide_eq_true_eq]
            exact le_total _ _) _
      have htake := hsorted.sublist (List.take_sublist n _)
      exact htake.imp (fun hab => by
        simpa [speedLE, decide_eq_true_eq] using hab)

def c7D0 : ProxyDetails :=
  ⟨"1.2.3.4:80", "valid", 1, "2025-01-01 00:00:00", "1.2.3.4", "unknown",
    "elite", false⟩

def c7WEnv : RotationEnv :=
  { fetchAll := fun _ => [⟨some "1.2.3.4:80", some "unknown", some "unknown"⟩]
    validate := fun _ _ => some c7D0
    sample := fun _ => [] }

/-- C7 (witness): a one-proxy run returns a list of length at most one,
sorted. -/
theorem c7_sorted_and_bounded_witness :
    ((List.mergeSort [c7D0] speedLE).take 1).length ≤ 1 ∧
    ((List.mergeSort [c7D0] speedLE).take 1).Pairwise
      (fun a b => a.speed ≤ b.speed) :=
  c7_sorted_and_bounded c7WEnv 1 1 _ rfl

end ProxyFinder
